import Mathlib

/-!
Verification development for the MXU presentation layer.

Shallow embedding of the view logic in `src/components/ContextMenu.tsx`
(ContextMenu primitive, TaskItem row, useContextMenu hook), the TaskList
drag-end handler, and the OnboardingOverlay state machine, together with
theorems about the properties documented in the specification.
-/

namespace MXU

/-! ## Menu item model (ContextMenu.tsx, `MenuItem` interface)

A menu item carries id, label, optional icon, optional shortcut text,
optional disabled/danger/checked flags, optional nested children, an
optional click action and an optional divider marker.  The click action
is represented by an abstract action identifier; icons by their name.
Optional fields that are `boolean | undefined` in the source are
`Option Bool` here, and JavaScript truthiness for them is `some true`.
An optional array field (`children`) is truthy whenever it is present,
even when empty, matching JavaScript array truthiness. -/

inductive MenuItem where
  | mk (id : String) (label : String) (icon : Option String)
       (shortcut : Option String) (disabled : Option Bool)
       (danger : Option Bool) (checked : Option Bool)
       (children : Option (List MenuItem)) (onClick : Option Nat)
       (divider : Option Bool) : MenuItem

def MenuItem.id : MenuItem → String
  | .mk i _ _ _ _ _ _ _ _ _ => i

def MenuItem.disabled : MenuItem → Option Bool
  | .mk _ _ _ _ d _ _ _ _ _ => d

def MenuItem.children : MenuItem → Option (List MenuItem)
  | .mk _ _ _ _ _ _ _ c _ _ => c

def MenuItem.onClick : MenuItem → Option Nat
  | .mk _ _ _ _ _ _ _ _ o _ => o

def MenuItem.divider : MenuItem → Option Bool
  | .mk _ _ _ _ _ _ _ _ _ d => d

/-- JavaScript truthiness of a `boolean | undefined` field: only a present
`true` is truthy. -/
def truthy : Option Bool → Bool
  | some b => b
  | none => false

/-- Effects a menu-item click can emit: invoking the item's action
(identified by its action id) and closing the menu. -/
inductive MenuEffect where
  | invoke (action : Nat)
  | close
deriving DecidableEq, Repr

/-- Embedding of `MenuItemComponent.handleClick`: return early when the item
is disabled or has a `children` field, otherwise call `onClick` if present
and then `onClose`.  The returned list records the emitted effects in
order. -/
def handleClick (item : MenuItem) : List MenuEffect :=
  if truthy item.disabled || item.children.isSome then []
  else
    (match item.onClick with
     | some a => [MenuEffect.invoke a]
     | none => []) ++ [MenuEffect.close]

/-- A rendered divider item is a plain separator element with no click
handler, so clicking it emits nothing; every other item renders as a
button whose click runs `handleClick`. -/
def clickRenderedItem (item : MenuItem) : List MenuEffect :=
  if truthy item.divider then [] else handleClick item

/-! ## Menu positioning (ContextMenu.tsx, position-adjusting effect) -/

/-- Screen position, as in the `MenuPosition` interface. -/
structure MenuPosition where
  x : Int
  y : Int
deriving DecidableEq, Repr

/-- Embedding of the position-adjusting effect of `ContextMenu`: if
`x + width` exceeds the viewport width, move `x` to
`viewportWidth - width - 8`; similarly for `y`; finally clamp both
coordinates to a minimum of 8. -/
def adjustMenuPosition (pos : MenuPosition) (width height viewportWidth viewportHeight : Int) :
    MenuPosition :=
  let x := pos.x
  let y := pos.y
  let x := if x + width > viewportWidth then viewportWidth - width - 8 else x
  let y := if y + height > viewportHeight then viewportHeight - height - 8 else y
  let x := max 8 x
  let y := max 8 y
  ⟨x, y⟩

/-- The property claimed by the specification (stated from the spec's
words, for comparison with `adjustMenuPosition`): the menu's bounding box
lies fully within the viewport with an 8-unit margin on every side. -/
def menuBoxWithinMargins (p : MenuPosition) (width height viewportWidth viewportHeight : Int) :
    Prop :=
  8 ≤ p.x ∧ p.x + width ≤ viewportWidth - 8 ∧
  8 ≤ p.y ∧ p.y + height ≤ viewportHeight - 8

/-! ## Context-menu hook state (ContextMenu.tsx, `useContextMenu`) -/

/-- The `ContextMenuState` managed by `useContextMenu`. -/
structure ContextMenuState where
  isOpen : Bool
  position : MenuPosition
  items : List MenuItem

/-- Initial state created by `useContextMenuState`. -/
def initialMenuState : ContextMenuState :=
  { isOpen := false, position := ⟨0, 0⟩, items := [] }

/-- Embedding of the hook's `show` operation: open the menu at the event's
client coordinates with a snapshot of the supplied items. -/
def showMenu (clientX clientY : Int) (items : List MenuItem) (_s : ContextMenuState) :
    ContextMenuState :=
  { isOpen := true, position := ⟨clientX, clientY⟩, items := items }

/-- Embedding of the hook's `hide` operation:
`setState (prev => ({ ...prev, isOpen: false }))`. -/
def hideMenu (s : ContextMenuState) : ContextMenuState :=
  { s with isOpen := false }

/-! ## Task model (types/interface, TaskItem.tsx, TaskList.tsx)

A selected task references a task definition by name and carries a stable
id, an optional custom display name, and enabled/expanded flags.  A task
definition (from the external project interface) has a name, a localized
label and an optional list of option keys. -/

structure SelectedTask where
  id : String
  taskName : String
  customName : Option String
  enabled : Bool
  expanded : Bool

structure TaskDef where
  name : String
  label : String
  option : Option (List String)

structure ProjectInterface where
  task : List TaskDef

/-- An instance: one configuration session with its ordered task list. -/
structure Instance where
  id : String
  selectedTasks : List SelectedTask

/-! ## Drag-end handling (TaskList.tsx, `handleDragEnd`) -/

/-- Helper for JavaScript `Array.prototype.findIndex`: index of the first
element satisfying the predicate, or none. -/
def findIdxAux (p : α → Bool) : List α → Option Nat
  | [] => none
  | x :: xs => if p x then some 0 else (findIdxAux p xs).map (· + 1)

/-- JavaScript `Array.prototype.findIndex`: the index of the first match,
or `-1` when no element matches. -/
def jsFindIndex (p : α → Bool) (l : List α) : Int :=
  match findIdxAux p l with
  | some n => (n : Int)
  | none => -1

/-- A reorder command dispatched to the store:
`reorderTasks(instanceId, fromIndex, toIndex)`. -/
structure ReorderCmd where
  instanceId : String
  fromIndex : Int
  toIndex : Int
deriving DecidableEq, Repr

/-- Embedding of `TaskList.handleDragEnd`: when there is a drop target
(`over`), its id differs from the dragged id, and there is an active
instance, look both ids up in the instance's task list with `findIndex`
and issue a single reorder command; otherwise issue nothing. -/
def handleDragEnd (inst : Option Instance) (activeId : String) (overId : Option String) :
    Option ReorderCmd :=
  match overId, inst with
  | some o, some i =>
    if activeId ≠ o then
      some { instanceId := i.id
             fromIndex := jsFindIndex (fun t => t.id == activeId) i.selectedTasks
             toIndex := jsFindIndex (fun t => t.id == o) i.selectedTasks }
    else none
  | _, _ => none

/-! ## Task row rendering (TaskItem.tsx) -/

/-- Which interactive controls a task row renders, read off the `TaskItem`
component body: the drag handle and the enable checkbox are rendered
unconditionally; the inline confirm/cancel controls only while editing;
the expand/collapse button only when the task definition declares options
and the row is not editing; the delete button only when not editing. -/
structure RowControls where
  dragHandle : Bool
  enableToggle : Bool
  editConfirm : Bool
  editCancel : Bool
  expandButton : Bool
  deleteButton : Bool
deriving DecidableEq, Repr

def taskRowControls (isEditing hasOptions : Bool) : RowControls :=
  { dragHandle := true
    enableToggle := true
    editConfirm := isEditing
    editCancel := isEditing
    expandButton := hasOptions && !isEditing
    deleteButton := !isEditing }

/-- Embedding of the `TaskItem` render guard: resolve the task's
definition via `projectInterface?.task.find(t => t.name === task.taskName)`;
if it cannot be resolved, render nothing (`null`); otherwise render the
row with the control set determined by the editing state and
`hasOptions = taskDef.option && taskDef.option.length > 0`. -/
def renderTaskItem (pi : Option ProjectInterface) (task : SelectedTask) (isEditing : Bool) :
    Option RowControls :=
  match pi with
  | none => none
  | some p =>
    match p.task.find? (fun d => d.name == task.taskName) with
    | none => none
    | some d =>
      let hasOptions := match d.option with
        | some keys => !keys.isEmpty
        | none => false
      some (taskRowControls isEditing hasOptions)

/-! ## Inline rename (TaskItem.tsx, edit state machine) -/

/-- A rename command dispatched to the store:
`renameTask(instanceId, taskId, name)`.  The name is a list of
characters. -/
structure RenameCmd where
  instanceId : String
  taskId : String
  newName : List Char
deriving DecidableEq, Repr

/-- JavaScript `String.prototype.trim` on a string modelled as a character
list: drop whitespace from both ends. -/
def jsTrim (s : List Char) : List Char :=
  ((s.dropWhile Char.isWhitespace).reverse.dropWhile Char.isWhitespace).reverse

/-- Outcome of an event on a row in the editing state. -/
inductive EditOutcome where
  | commit (cmd : RenameCmd)
  | cancel
  | ignored
deriving DecidableEq, Repr

/-- Embedding of `handleSaveEdit`: issue
`renameTask(instanceId, task.id, editName.trim())` and leave the editing
state. -/
def handleSaveEdit (instanceId taskId : String) (editName : List Char) : EditOutcome :=
  .commit { instanceId := instanceId, taskId := taskId, newName := jsTrim editName }

/-- Embedding of `handleCancelEdit`: leave the editing state and clear the
buffer without committing. -/
def handleCancelEdit : EditOutcome := .cancel

/-- The events that can end an editing session: a key press on the input,
loss of focus, or the inline confirm/cancel controls. -/
inductive EditEvent where
  | keyDown (key : String)
  | blur
  | confirmMouseDown
  | cancelMouseDown

/-- Dispatch of the editing-state handlers as wired in the component:
`onKeyDown` runs `handleSaveEdit` on Enter and `handleCancelEdit` on
Escape, `onBlur` runs `handleSaveEdit`, the confirm control runs
`handleSaveEdit`, the cancel control runs `handleCancelEdit`. -/
def handleEditEvent (instanceId taskId : String) (editName : List Char) :
    EditEvent → EditOutcome
  | .keyDown k =>
    if k = "Enter" then handleSaveEdit instanceId taskId editName
    else if k = "Escape" then handleCancelEdit
    else .ignored
  | .blur => handleSaveEdit instanceId taskId editName
  | .confirmMouseDown => handleSaveEdit instanceId taskId editName
  | .cancelMouseDown => handleCancelEdit

/-! ## Onboarding overlay (OnboardingOverlay.tsx)

The component is modelled as a state machine.  The state combines the
relevant store fields (`onboardingCompleted`, `instanceConnectionStatus`,
`instanceResourceLoaded`, `activeInstanceId`), the component-local
`isVisible`/`isExiting` flags, and the pending timers: the 500ms display
timer, whose handle is stored in `timeoutRef` and cleared by the first
effect's cleanup, and the 200ms exit timer scheduled by `handleDismiss`,
which is not stored anywhere.  `mounted` records whether the component is
still mounted; watcher effects run only while mounted. -/

def displayDelayMs : Nat := 500

def exitDelayMs : Nat := 200

structure OnboardingState where
  completed : Bool
  connStatus : String → Option String
  resourceLoaded : String → Bool
  activeInstanceId : Option String
  isVisible : Bool
  isExiting : Bool
  displayTimerPending : Bool
  exitTimerPending : Bool
  mounted : Bool

/-- Pointwise update of the per-instance connection-status map. -/
def updateStatusMap (m : String → Option String) (k : String) (v : Option String) :
    String → Option String :=
  fun x => if x = k then v else m x

/-- Pointwise update of the per-instance resource-loaded map. -/
def updateLoadedMap (m : String → Bool) (k : String) (v : Bool) : String → Bool :=
  fun x => if x = k then v else m x

/-- Embedding of `handleDismiss`: set `isExiting` and schedule the 200ms
exit timer (a bare `setTimeout` whose handle is not stored). -/
def handleDismiss (s : OnboardingState) : OnboardingState :=
  { s with isExiting := true, exitTimerPending := true }

/-- Embedding of the watcher effect: while visible and not completed,
if there is an active instance whose connection status is `'Connected'`
and whose resource-loaded flag is set, run `handleDismiss`. -/
def checkAutoComplete (s : OnboardingState) : OnboardingState :=
  if !s.isVisible || s.completed then s
  else
    match s.activeInstanceId with
    | none => s
    | some iid =>
      if (s.connStatus iid == some "Connected") && s.resourceLoaded iid then
        handleDismiss s
      else s

/-- Mounting the component: local `isVisible`/`isExiting` start false; the
first effect schedules the 500ms display timer unless onboarding is
already completed; the watcher effect also runs once (a no-op while not
visible). -/
def mountOverlay (completed : Bool) (connStatus : String → Option String)
    (resourceLoaded : String → Bool) (activeInstanceId : Option String) : OnboardingState :=
  checkAutoComplete
    { completed := completed
      connStatus := connStatus
      resourceLoaded := resourceLoaded
      activeInstanceId := activeInstanceId
      isVisible := false
      isExiting := false
      displayTimerPending := !completed
      exitTimerPending := false
      mounted := true }

/-- External events the mounted component can observe: its two timers
firing, store updates (connection status, resource-loaded flag, active
instance), a click on the backdrop or acknowledgement control, and
unmount. -/
inductive OnboardingEvent where
  | fireDisplayTimer
  | fireExitTimer
  | setConnStatus (iid : String) (status : Option String)
  | setResourceLoaded (iid : String) (loaded : Bool)
  | setActiveInstance (iid : Option String)
  | dismissClick
  | unmount

/-- One step of the overlay state machine.  The display timer makes the
overlay visible and re-runs the watcher effect.  The exit timer — never
cancelled by any cleanup — hides the overlay and persists the completed
flag even after unmount.  Store updates re-run the watcher effect while
the component is mounted.  The dismiss controls exist only while the
overlay is mounted and visible.  Unmount runs the first effect's cleanup,
which clears only the display timer stored in `timeoutRef`. -/
def step (s : OnboardingState) : OnboardingEvent → OnboardingState
  | .fireDisplayTimer =>
    if s.displayTimerPending then
      checkAutoComplete { s with isVisible := true, displayTimerPending := false }
    else s
  | .fireExitTimer =>
    if s.exitTimerPending then
      { s with exitTimerPending := false, isVisible := false, completed := true }
    else s
  | .setConnStatus iid st =>
    let s' := { s with connStatus := updateStatusMap s.connStatus iid st }
    if s.mounted then checkAutoComplete s' else s'
  | .setResourceLoaded iid b =>
    let s' := { s with resourceLoaded := updateLoadedMap s.resourceLoaded iid b }
    if s.mounted then checkAutoComplete s' else s'
  | .setActiveInstance iid =>
    let s' := { s with activeInstanceId := iid }
    if s.mounted then checkAutoComplete s' else s'
  | .dismissClick =>
    if s.mounted && s.isVisible then handleDismiss s else s
  | .unmount =>
    { s with mounted := false, displayTimerPending := false }

/-- Run a sequence of events from a state. -/
def runEvents (s : OnboardingState) (evs : List OnboardingEvent) : OnboardingState :=
  evs.foldl step s

/-- The component's render guard: `if (!isVisible) return null`, so the
overlay markup is emitted exactly when `isVisible` holds. -/
def renderOverlay (s : OnboardingState) : Bool :=
  s.isVisible

/-! ## Concrete states and traces used by witnesses -/

/-- A concrete three-task instance used to witness the drag-end theorems. -/
def inst0 : Instance :=
  { id := "i0"
    selectedTasks :=
      [ { id := "a", taskName := "t1", customName := none, enabled := true, expanded := false }
      , { id := "b", taskName := "t2", customName := none, enabled := true, expanded := false }
      , { id := "c", taskName := "t3", customName := none, enabled := false, expanded := true } ] }

/-- A concrete visible, uncompleted overlay state with active instance
`"i"`, whose resource is loaded but whose connection is not yet
established. -/
def sVis : OnboardingState :=
  { completed := false
    connStatus := fun _ => none
    resourceLoaded := fun _ => true
    activeInstanceId := some "i"
    isVisible := true
    isExiting := false
    displayTimerPending := false
    exitTimerPending := false
    mounted := true }

/-- `sVis` after the dismissal path has started: exiting with the 200ms
exit timer pending. -/
def sExit : OnboardingState :=
  { sVis with isExiting := true, exitTimerPending := true }

/-- An event trace in which the overlay becomes visible, is dismissed, and
the component unmounts before the 200ms exit timer fires. -/
def demoTrace : List OnboardingEvent :=
  [.fireDisplayTimer, .dismissClick, .unmount]

/-- The state reached by `demoTrace` from a fresh, uncompleted overlay. -/
def afterUnmount : OnboardingState :=
  runEvents (mountOverlay false (fun _ => none) (fun _ => false) (some "i")) demoTrace

/-- Invariant used for the completed-at-start case: the overlay is not
visible and holds no pending timer. -/
def quietInv (s : OnboardingState) : Prop :=
  s.isVisible = false ∧ s.displayTimerPending = false ∧ s.exitTimerPending = false

/-! ## Helper lemmas -/

lemma checkAutoComplete_not_visible (s : OnboardingState) (h : s.isVisible = false) :
    checkAutoComplete s = s := by
  unfold checkAutoComplete
  rw [h]
  simp

lemma checkAutoComplete_isVisible (s : OnboardingState) :
    (checkAutoComplete s).isVisible = s.isVisible := by
  unfold checkAutoComplete handleDismiss
  split
  · rfl
  · split
    · rfl
    · split
      · rfl
      · rfl

lemma step_preserves_quiet (s : OnboardingState) (e : OnboardingEvent) (h : quietInv s) :
    quietInv (step s e) := by
  obtain ⟨h1, h2, h3⟩ := h
  cases e with
  | fireDisplayTimer =>
    simp only [step, h2, Bool.false_eq_true, if_false]
    exact ⟨h1, h2, h3⟩
  | fireExitTimer =>
    simp only [step, h3, Bool.false_eq_true, if_false]
    exact ⟨h1, h2, h3⟩
  | setConnStatus iid st =>
    simp only [step]
    split
    · have hx := checkAutoComplete_not_visible
        { s with connStatus := updateStatusMap s.connStatus iid st } h1
      rw [hx]
      exact ⟨h1, h2, h3⟩
    · exact ⟨h1, h2, h3⟩
  | setResourceLoaded iid b =>
    simp only [step]
    split
    · have hx := checkAutoComplete_not_visible
        { s with resourceLoaded := updateLoadedMap s.resourceLoaded iid b } h1
      rw [hx]
      exact ⟨h1, h2, h3⟩
    · exact ⟨h1, h2, h3⟩
  | setActiveInstance iid =>
    simp only [step]
    split
    · have hx := checkAutoComplete_not_visible { s with activeInstanceId := iid } h1
      rw [hx]
      exact ⟨h1, h2, h3⟩
    · exact ⟨h1, h2, h3⟩
  | dismissClick =>
    simp only [step, h1, Bool.and_false, Bool.false_eq_true, if_false]
    exact ⟨h1, h2, h3⟩
  | unmount =>
    exact ⟨h1, rfl, h3⟩

lemma runEvents_preserves_quiet (evs : List OnboardingEvent) :
    ∀ s : OnboardingState, quietInv s → quietInv (runEvents s evs) := by
  induction evs with
  | nil => intro s h; exact h
  | cons e evs ih =>
    intro s h
    exact ih (step s e) (step_preserves_quiet s e h)

lemma findIdxAux_self {α : Type} (f : α → String) (l : List α) (i : Nat) (hi : i < l.length)
    (hn : (l.map f).Nodup) :
    findIdxAux (fun t => f t == f l[i]) l = some i := by
  induction l generalizing i with
  | nil => simp at hi
  | cons x xs ih =>
    have hn2 : (f x :: xs.map f).Nodup := by rw [List.map_cons] at hn; exact hn
    have hn' := List.nodup_cons.mp hn2
    rcases i with _ | i
    · simp [findIdxAux]
    · have hi' : i < xs.length := by simpa using Nat.lt_of_succ_lt_succ hi
      have hmem : f (xs[i]) ∈ xs.map f := List.mem_map_of_mem f (xs.getElem_mem hi')
      have hne : f x ≠ f (xs[i]) := fun h => hn'.1 (h ▸ hmem)
      have hrec := ih i hi' hn'.2
      simp [findIdxAux, hne, hrec]

lemma jsFindIndex_self {α : Type} (f : α → String) (l : List α) (i : Nat)
    (hi : i < l.length) (hn : (l.map f).Nodup) :
    jsFindIndex (fun t => f t == f l[i]) l = (i : Int) := by
  unfold jsFindIndex
  rw [findIdxAux_self f l i hi hn]

lemma map_getElem_ne {α : Type} (f : α → String) (l : List α) (hn : (l.map f).Nodup)
    (i j : Nat) (hi : i < l.length) (hj : j < l.length) (hij : i ≠ j) :
    f l[i] ≠ f l[j] := by
  intro h
  have hi' : i < (l.map f).length := by simpa using hi
  have hj' : j < (l.map f).length := by simpa using hj
  have h2 : (l.map f)[i] = (l.map f)[j] := by
    rw [List.getElem_map, List.getElem_map]
    exact h
  exact hij (hn.getElem_inj_iff.mp h2)

/-! ## Claim theorems -/

/-- Claim C1: for every task list and every drag that ends with a drop
target different from the drag source (distinct in-range indices `i` and
`j` of a duplicate-free id list), the drag-end handler issues exactly one
reorder command carrying exactly the pair `(fromIndex = i, toIndex = j)`;
when there is no valid drop target, or the drop target equals the source,
no reorder command is issued. -/
theorem dragEnd_issues_exact_pair (inst : Instance) (i j : Nat)
    (hi : i < inst.selectedTasks.length) (hj : j < inst.selectedTasks.length)
    (hij : i ≠ j) (hnodup : (inst.selectedTasks.map (fun t => t.id)).Nodup) :
    handleDragEnd (some inst) (inst.selectedTasks[i].id) (some (inst.selectedTasks[j].id)) =
      some { instanceId := inst.id, fromIndex := (i : Int), toIndex := (j : Int) }
    ∧ (∀ a, handleDragEnd (some inst) a none = none)
    ∧ (∀ oinst a, handleDragEnd oinst a (some a) = none) := by
  refine ⟨?_, fun a => rfl, fun oinst a => ?_⟩
  · have hne := map_getElem_ne (fun t => t.id) inst.selectedTasks hnodup i j hi hj hij
    simp only [handleDragEnd, if_pos hne, Option.some.injEq, ReorderCmd.mk.injEq]
    exact ⟨trivial,
      jsFindIndex_self (fun t => t.id) inst.selectedTasks i hi hnodup,
      jsFindIndex_self (fun t => t.id) inst.selectedTasks j hj hnodup⟩
  · cases oinst with
    | none => rfl
    | some inst => simp [handleDragEnd]

/-- Witness for C1 at a concrete input: dragging task `"a"` (index 0) onto
task `"c"` (index 2) issues exactly the reorder command `(0, 2)`; a drop
with no target, or onto itself, issues nothing. -/
theorem dragEnd_issues_exact_pair_witness :
    handleDragEnd (some inst0) "a" (some "c") =
      some { instanceId := "i0", fromIndex := 0, toIndex := 2 }
    ∧ handleDragEnd (some inst0) "a" none = none
    ∧ handleDragEnd (some inst0) "a" (some "a") = none := by
  have h := dragEnd_issues_exact_pair inst0 0 2 (by decide) (by decide) (by decide) (by decide)
  exact ⟨h.1, h.2.1 "a", h.2.2 (some inst0) "a"⟩

/-- Counterexample to claim C2 as stated: in a 100×100 viewport, a 50×50
menu requested at anchor (46, 46) triggers neither overflow shift
(46 + 50 ≤ 100) and is not moved by the minimum clamp, so the computed
position is (46, 46) and the box's right and bottom edges reach 96,
outside `[8, 92]`.  The clamped box is therefore not within
`[8, viewportWidth-8] × [8, viewportHeight-8]`. -/
theorem menu_clamp_margin_counterexample :
    adjustMenuPosition ⟨46, 46⟩ 50 50 100 100 = ⟨46, 46⟩ ∧
    ¬ menuBoxWithinMargins (adjustMenuPosition ⟨46, 46⟩ 50 50 100 100) 50 50 100 100 := by
  constructor
  · rfl
  · unfold menuBoxWithinMargins adjustMenuPosition
    decide

/-- Claim C2 as amended: the clamping algorithm guarantees an 8-unit
margin on the left and top edges unconditionally, and — provided the
measured menu size plus the two 8-unit margins fits in the viewport
(`width + 16 ≤ viewportWidth`, `height + 16 ≤ viewportHeight`) — keeps
the menu's bounding box inside the viewport `[8, viewportWidth] ×
[8, viewportHeight]`; the 8-unit margin on the right and bottom edges is
only guaranteed when the overflow shift fires, not for every anchor. -/
theorem menu_clamp_within_viewport (pos : MenuPosition) (width height vw vh : Int)
    (hw : width + 16 ≤ vw) (hh : height + 16 ≤ vh) :
    8 ≤ (adjustMenuPosition pos width height vw vh).x ∧
    (adjustMenuPosition pos width height vw vh).x + width ≤ vw ∧
    8 ≤ (adjustMenuPosition pos width height vw vh).y ∧
    (adjustMenuPosition pos width height vw vh).y + height ≤ vh := by
  unfold adjustMenuPosition
  dsimp only
  refine ⟨le_max_left _ _, ?_, le_max_left _ _, ?_⟩
  · rcases max_choice (8 : Int) (if pos.x + width > vw then vw - width - 8 else pos.x) with h | h
    · rw [h]; omega
    · rw [h]; split_ifs with hsplit <;> omega
  · rcases max_choice (8 : Int) (if pos.y + height > vh then vh - height - 8 else pos.y) with h | h
    · rw [h]; omega
    · rw [h]; split_ifs with hsplit <;> omega

/-- Witness for the amended C2 at a concrete input: a 50×50 menu at
anchor (0, 0) in a 100×100 viewport ends up with both coordinates at
least 8 and the box inside the viewport. -/
theorem menu_clamp_within_viewport_witness :
    (50 : Int) + 16 ≤ 100 ∧
    (8 ≤ (adjustMenuPosition ⟨0, 0⟩ 50 50 100 100).x ∧
     (adjustMenuPosition ⟨0, 0⟩ 50 50 100 100).x + 50 ≤ 100 ∧
     8 ≤ (adjustMenuPosition ⟨0, 0⟩ 50 50 100 100).y ∧
     (adjustMenuPosition ⟨0, 0⟩ 50 50 100 100).y + 50 ≤ 100) :=
  ⟨by decide, menu_clamp_within_viewport ⟨0, 0⟩ 50 50 100 100 (by decide) (by decide)⟩

/-- Claim C3: clicking a rendered menu item that is disabled or has a
`children` field emits no effect at all (no action invocation and no menu
close); clicking a non-divider, non-disabled, childless item with an
action invokes that action exactly once and then closes the menu. -/
theorem menuItem_click_behavior (item : MenuItem) :
    ((truthy item.disabled = true ∨ item.children.isSome = true) →
      clickRenderedItem item = [])
    ∧ (truthy item.divider = false → truthy item.disabled = false →
        item.children = none → ∀ a, item.onClick = some a →
        clickRenderedItem item = [MenuEffect.invoke a, MenuEffect.close]) := by
  constructor
  · intro h
    unfold clickRenderedItem handleClick
    have hcond : (truthy item.disabled || item.children.isSome) = true := by
      rcases h with h | h <;> simp [h]
    rw [hcond]
    split <;> rfl
  · intro hdiv hdis hch a ha
    unfold clickRenderedItem handleClick
    rw [hdiv, hdis, hch, ha]
    rfl

/-- Witness for C3 at concrete inputs: a disabled item emits nothing; an
enabled childless item with action 5 emits exactly one invocation of
action 5 followed by a close. -/
theorem menuItem_click_behavior_witness :
    clickRenderedItem
        (.mk "d" "Disabled" none none (some true) none none none (some 3) none) = []
    ∧ clickRenderedItem
        (.mk "e" "Enabled" none none none none none none (some 5) none) =
      [MenuEffect.invoke 5, MenuEffect.close] := by
  constructor
  · exact (menuItem_click_behavior
      (.mk "d" "Disabled" none none (some true) none none none (some 3) none)).1
      (Or.inl rfl)
  · exact (menuItem_click_behavior
      (.mk "e" "Enabled" none none none none none none (some 5) none)).2
      rfl rfl rfl 5 rfl

/-- Claim C4: all three rename-commit paths — the Enter key, loss of
focus, and the inline confirm control — issue the same rename command
carrying the trimmed edit buffer; in particular a buffer consisting only
of whitespace commits the empty custom name, never the whitespace
itself. -/
theorem rename_commit_trims (instanceId taskId : String) (editName : List Char) :
    (handleEditEvent instanceId taskId editName (.keyDown "Enter") =
        .commit { instanceId := instanceId, taskId := taskId, newName := jsTrim editName }
      ∧ handleEditEvent instanceId taskId editName .blur =
        .commit { instanceId := instanceId, taskId := taskId, newName := jsTrim editName }
      ∧ handleEditEvent instanceId taskId editName .confirmMouseDown =
        .commit { instanceId := instanceId, taskId := taskId, newName := jsTrim editName })
    ∧ ((∀ c ∈ editName, c.isWhitespace = true) → jsTrim editName = []) := by
  refine ⟨⟨rfl, rfl, rfl⟩, fun hws => ?_⟩
  unfold jsTrim
  have h1 : editName.dropWhile Char.isWhitespace = [] :=
    List.dropWhile_eq_nil_iff.mpr hws
  rw [h1]
  rfl

/-- Witness for C4 at a concrete input: the buffer `" \t "` (whitespace
only) commits the empty custom name through all three paths. -/
theorem rename_commit_trims_witness :
    handleEditEvent "i0" "a" [' ', '\t', ' '] (.keyDown "Enter") =
      .commit { instanceId := "i0", taskId := "a", newName := [] }
    ∧ handleEditEvent "i0" "a" [' ', '\t', ' '] .blur =
      .commit { instanceId := "i0", taskId := "a", newName := [] }
    ∧ handleEditEvent "i0" "a" [' ', '\t', ' '] .confirmMouseDown =
      .commit { instanceId := "i0", taskId := "a", newName := [] } := by
  have h := rename_commit_trims "i0" "a" [' ', '\t', ' ']
  have hz : jsTrim [' ', '\t', ' '] = [] := h.2 (by decide)
  exact ⟨hz ▸ h.1.1, hz ▸ h.1.2.1, hz ▸ h.1.2.2⟩

/-- Counterexample to claim C5 as stated: for a task row in the editing
state (here one whose definition declares options), the enable toggle and
the drag handle are still rendered and activatable, so it is not the case
that every row control other than the inline confirm/cancel controls is
suppressed. -/
theorem editing_controls_counterexample :
    ¬ ((taskRowControls true true).enableToggle = false ∧
       (taskRowControls true true).dragHandle = false) := by
  unfold taskRowControls
  decide

/-- Claim C5 as amended: while a task row is editing, the expand/collapse
button and the delete button are suppressed and the inline confirm and
cancel controls are rendered, but the enable toggle and the drag handle
remain rendered (they are not gated on the editing state). -/
theorem editing_controls_amended (hasOptions : Bool) :
    taskRowControls true hasOptions =
      { dragHandle := true, enableToggle := true, editConfirm := true,
        editCancel := true, expandButton := false, deleteButton := false } := by
  unfold taskRowControls
  simp

/-- Witness for the amended C5 at a concrete input: a row with options, in
the editing state, renders the drag handle, enable toggle and the inline
confirm/cancel controls, and suppresses the expand and delete buttons. -/
theorem editing_controls_amended_witness :
    taskRowControls true true =
      { dragHandle := true, enableToggle := true, editConfirm := true,
        editCancel := true, expandButton := false, deleteButton := false } :=
  editing_controls_amended true

/-- Claim C9: a task whose referenced task-definition name has no matching
definition in the project interface renders nothing — `renderTaskItem` is
a total function returning `none`, both when the project interface is
absent and when the lookup finds no definition — a silent skip, not a
failure. -/
theorem unresolved_taskDef_renders_nothing (pi : Option ProjectInterface)
    (task : SelectedTask) (isEditing : Bool)
    (h : pi = none ∨ ∃ p, pi = some p ∧
        p.task.find? (fun d => d.name == task.taskName) = none) :
    renderTaskItem pi task isEditing = none := by
  rcases h with h | ⟨p, hp, hfind⟩
  · rw [h]; rfl
  · rw [hp]
    unfold renderTaskItem
    dsimp only
    rw [hfind]

/-- Witness for C9 at a concrete input: a project interface declaring only
a definition named `"known"` resolves nothing for a task referencing
`"missing"`, and the row renders nothing. -/
theorem unresolved_taskDef_renders_nothing_witness :
    renderTaskItem
      (some { task := [{ name := "known", label := "Known", option := none }] })
      { id := "x", taskName := "missing", customName := none,
        enabled := true, expanded := true }
      false = none :=
  unresolved_taskDef_renders_nothing
    (some { task := [{ name := "known", label := "Known", option := none }] })
    { id := "x", taskName := "missing", customName := none,
      enabled := true, expanded := true }
    false
    (Or.inr ⟨_, rfl, rfl⟩)

/-- Claim C10: the hook's hide operation changes only the open flag to
false; the position and items snapshot stored by the last show operation
are left unchanged. -/
theorem hide_changes_only_isOpen (s : ContextMenuState) :
    (hideMenu s).isOpen = false ∧
    (hideMenu s).position = s.position ∧
    (hideMenu s).items = s.items :=
  ⟨rfl, rfl, rfl⟩

/-- Witness for C10 at a concrete input: hiding an open menu at (3, 4)
with one item keeps the position and items and clears the open flag. -/
theorem hide_changes_only_isOpen_witness :
    (hideMenu (showMenu 3 4
        [.mk "a" "Add" none none none none none none (some 0) none]
        initialMenuState)).isOpen = false ∧
    (hideMenu (showMenu 3 4
        [.mk "a" "Add" none none none none none none (some 0) none]
        initialMenuState)).position =
      (showMenu 3 4 [.mk "a" "Add" none none none none none none (some 0) none]
        initialMenuState).position ∧
    (hideMenu (showMenu 3 4
        [.mk "a" "Add" none none none none none none (some 0) none]
        initialMenuState)).items =
      (showMenu 3 4 [.mk "a" "Add" none none none none none none (some 0) none]
        initialMenuState).items :=
  hide_changes_only_isOpen _

/-- Claim C6: with the completed flag starting false, mounting schedules
the 500ms display timer and the overlay is not yet visible; firing that
timer makes the overlay visible; whenever the overlay is visible, not
completed, and the active instance's connection status becomes
`'Connected'` while its resource-loaded flag is true, the step is exactly
the manual dismissal path `handleDismiss` applied to the status-updated
state; that path sets exiting and schedules the 200ms exit timer without
hiding the overlay; and firing the exit timer hides the overlay and
persists the completed flag. -/
theorem onboarding_auto_complete_flow (connStatus : String → Option String)
    (resourceLoaded : String → Bool) (activeInstanceId : Option String) :
    displayDelayMs = 500 ∧ exitDelayMs = 200
    ∧ (mountOverlay false connStatus resourceLoaded activeInstanceId).displayTimerPending = true
    ∧ (mountOverlay false connStatus resourceLoaded activeInstanceId).isVisible = false
    ∧ (∀ s : OnboardingState, s.displayTimerPending = true →
        (step s .fireDisplayTimer).isVisible = true)
    ∧ (∀ (s : OnboardingState) (iid : String), s.mounted = true → s.isVisible = true →
        s.completed = false → s.activeInstanceId = some iid → s.resourceLoaded iid = true →
        step s (.setConnStatus iid (some "Connected")) =
          handleDismiss
            { s with connStatus := updateStatusMap s.connStatus iid (some "Connected") })
    ∧ (∀ s : OnboardingState, (handleDismiss s).isExiting = true ∧
        (handleDismiss s).exitTimerPending = true ∧ (handleDismiss s).isVisible = s.isVisible)
    ∧ (∀ s : OnboardingState, s.exitTimerPending = true →
        (step s .fireExitTimer).isVisible = false ∧ (step s .fireExitTimer).completed = true) := by
  refine ⟨rfl, rfl, ?_, ?_, ?_, ?_, fun s => ⟨rfl, rfl, rfl⟩, ?_⟩
  · unfold mountOverlay
    rw [checkAutoComplete_not_visible _ rfl]
    rfl
  · unfold mountOverlay
    rw [checkAutoComplete_not_visible _ rfl]
  · intro s hs
    simp only [step]
    rw [if_pos hs, checkAutoComplete_isVisible]
  · intro s iid hm hv hc ha hr
    simp only [step]
    rw [if_pos hm]
    simp [checkAutoComplete, updateStatusMap, hv, hc, ha, hr]
  · intro s hs
    simp only [step]
    rw [if_pos hs]
    exact ⟨rfl, rfl⟩

/-- Witness for C6 at concrete inputs: from a concrete invisible state the
display timer makes the overlay visible; in the concrete visible state
`sVis` the connection becoming `'Connected'` takes exactly the dismissal
path; and in the exiting state `sExit` the exit timer hides the overlay
and sets the completed flag. -/
theorem onboarding_auto_complete_flow_witness :
    (step { sVis with isVisible := false, displayTimerPending := true }
        .fireDisplayTimer).isVisible = true
    ∧ step sVis (.setConnStatus "i" (some "Connected")) =
        handleDismiss
          { sVis with connStatus := updateStatusMap sVis.connStatus "i" (some "Connected") }
    ∧ (step sExit .fireExitTimer).isVisible = false
    ∧ (step sExit .fireExitTimer).completed = true := by
  have h := onboarding_auto_complete_flow (fun _ => none) (fun _ => true) (some "i")
  exact ⟨h.2.2.2.2.1 _ rfl,
    h.2.2.2.2.2.1 sVis "i" rfl rfl rfl rfl rfl,
    (h.2.2.2.2.2.2.2 sExit rfl).1,
    (h.2.2.2.2.2.2.2 sExit rfl).2⟩

/-- Claim C7: if the completed flag starts true, the overlay renders
nothing after every sequence of connection-status, resource-loaded,
active-instance, timer and dismissal events. -/
theorem onboarding_completed_never_visible (connStatus : String → Option String)
    (resourceLoaded : String → Bool) (activeInstanceId : Option String)
    (evs : List OnboardingEvent) :
    renderOverlay
      (runEvents (mountOverlay true connStatus resourceLoaded activeInstanceId) evs) = false := by
  have hq : quietInv (mountOverlay true connStatus resourceLoaded activeInstanceId) := by
    unfold mountOverlay
    rw [checkAutoComplete_not_visible _ rfl]
    exact ⟨rfl, rfl, rfl⟩
  exact (runEvents_preserves_quiet evs _ hq).1

/-- Witness for C7 at a concrete input: an already-completed overlay
renders nothing under a connection sequence that connects and loads the
active instance. -/
theorem onboarding_completed_never_visible_witness :
    renderOverlay
      (runEvents (mountOverlay true (fun _ => none) (fun _ => false) (some "i"))
        [.fireDisplayTimer, .setConnStatus "i" (some "Connected"),
         .setResourceLoaded "i" true, .fireExitTimer]) = false :=
  onboarding_completed_never_visible (fun _ => none) (fun _ => false) (some "i")
    [.fireDisplayTimer, .setConnStatus "i" (some "Connected"),
     .setResourceLoaded "i" true, .fireExitTimer]

/-- Claim C8 concerns the cleanup of the two onboarding timers.  The 500ms
display timer is stored in `timeoutRef` and cleared by the first effect's
cleanup, but the 200ms exit timer scheduled inside `handleDismiss` is a
bare `setTimeout` whose handle is never stored and which no cleanup
clears.  This theorem evaluates the machine on the failing trace: the
overlay becomes visible, is dismissed, and the component unmounts before
the exit delay elapses; afterwards the exit timer is still pending and
firing it still performs the `setIsVisible`/`setOnboardingCompleted`
state updates — while unmounting with the display timer pending does
clear the display timer. -/
theorem exit_timer_survives_unmount :
    afterUnmount.mounted = false
    ∧ afterUnmount.displayTimerPending = false
    ∧ afterUnmount.exitTimerPending = true
    ∧ afterUnmount.completed = false
    ∧ (step afterUnmount .fireExitTimer).completed = true
    ∧ (step afterUnmount .fireExitTimer).isVisible = false
    ∧ (runEvents (mountOverlay false (fun _ => none) (fun _ => false) (some "i"))
        [.unmount]).displayTimerPending = false :=
  ⟨rfl, rfl, rfl, rfl, rfl, rfl, rfl⟩

end MXU
